import Mathlib

/-!
Verification of the BrightEd syllabus extraction pipeline (`src/main.py`,
class `EnhancedCXCSyllabusParser`).  Text is modelled as `List Char`
(ASCII-level model of Python `str`); the external MD5 digest
(`hashlib.md5(...).hexdigest()`), the JSON encoder and the clock are
parameters of the model, since they are library calls and not code of
this repository.  Every definition below is a direct translation of the
corresponding Python function.
-/

/-- Python strings, modelled as lists of characters. -/
abbrev Str := List Char

/-- The character class of Python's regex `\s` (ASCII part). -/
def isPySpace (c : Char) : Bool :=
  c = ' ' || c = '\t' || c = '\n' || c = '\r' || c = '\x0b' || c = '\x0c'

/-- Python regex word character `\w` (ASCII part): alphanumeric or underscore. -/
def isWordChar (c : Char) : Bool := c.isAlphanum || c = '_'

/-- The test `leadsWith w s` is true when `w` is an initial segment of `s`
(the anchored part of a regex literal match). -/
def leadsWith : Str → Str → Bool
  | [], _ => true
  | _ :: _, [] => false
  | a :: as, b :: bs => a == b && leadsWith as bs

/-- Python's `needle in hay` substring test. -/
def containsSub (needle : Str) : Str → Bool
  | [] => needle.isEmpty
  | c :: rest => leadsWith needle (c :: rest) || containsSub needle rest

/-- Python `str.upper()` (ASCII). -/
def pyUpper (s : Str) : Str := s.map Char.toUpper

/-- Python `str.lower()` (ASCII). -/
def pyLower (s : Str) : Str := s.map Char.toLower

/-- Python `str.strip()`: remove leading and trailing whitespace. -/
def pyStrip (s : Str) : Str :=
  ((s.dropWhile isPySpace).reverse.dropWhile isPySpace).reverse

/-- The keyword tiers of `estimate_difficulty` (`main.py` lines 178-182),
in the dictionary's insertion order 3, 2, 1. -/
def levels : List (Nat × List Str) :=
  [ (3, [['a','n','a','l','y','s','e'], ['e','v','a','l','u','a','t','e'],
         ['s','y','n','t','h','e','s','i','z','e'], ['j','u','s','t','i','f','y'],
         ['c','r','i','t','i','q','u','e'], ['d','e','s','i','g','n'],
         ['c','r','e','a','t','e']]),
    (2, [['e','x','p','l','a','i','n'], ['d','e','s','c','r','i','b','e'],
         ['d','i','s','c','u','s','s'], ['a','p','p','l','y'],
         ['d','e','m','o','n','s','t','r','a','t','e'],
         ['c','a','l','c','u','l','a','t','e'], ['i','n','t','e','r','p','r','e','t']]),
    (1, [['l','i','s','t'], ['s','t','a','t','e'], ['d','e','f','i','n','e'],
         ['l','a','b','e','l'], ['i','d','e','n','t','i','f','y'],
         ['r','e','c','a','l','l']]) ]

/-- Model of `estimate_difficulty` (`main.py` lines 177-186): lowercase the text,
walk the tiers in dictionary order and return the first tier one of whose
keywords occurs as a substring; default 1. -/
def estimate_difficulty (text : Str) : Nat :=
  let tl := pyLower text
  match levels.find? (fun lk => lk.2.any (fun kw => containsSub kw tl)) with
  | some lk => lk.1
  | none => 1

example : estimate_difficulty ("Analyse and list the parts".data) = 3 := by decide
example : estimate_difficulty ("Explain the parts".data) = 2 := by decide
example : estimate_difficulty ("name the parts".data) = 1 := by decide

/-- Model of `re.sub(r'\s+', ' ', text)`: collapse every maximal whitespace run
into a single space (`clean_text`, `main.py` line 79). -/
def collapseWS : Str → Str
  | [] => []
  | c :: rest =>
    if isPySpace c then
      match rest with
      | [] => [' ']
      | d :: _ => if isPySpace d then collapseWS rest else ' ' :: collapseWS rest
    else c :: collapseWS rest

/-- Anchored match of `CXC\s+\d+/G/SYLL\s+\d+` at the head of the list;
returns the remainder after the match. -/
def matchCxcFooter (l : Str) : Option Str :=
  if leadsWith (['C','X','C']) l then
    let r1 := l.drop 3
    let ws1 := r1.takeWhile isPySpace
    if ws1.isEmpty then none else
    let r2 := r1.drop ws1.length
    let d1 := r2.takeWhile Char.isDigit
    if d1.isEmpty then none else
    let r3 := r2.drop d1.length
    if leadsWith (['/','G','/','S','Y','L','L']) r3 then
      let r4 := r3.drop 7
      let ws2 := r4.takeWhile isPySpace
      if ws2.isEmpty then none else
      let r5 := r4.drop ws2.length
      let d2 := r5.takeWhile Char.isDigit
      if d2.isEmpty then none else some (r5.drop d2.length)
    else none
  else none

/-- Anchored match of `Page\s+\d+` at the head of the list. -/
def matchPageFooter (l : Str) : Option Str :=
  if leadsWith (['P','a','g','e']) l then
    let r1 := l.drop 4
    let ws := r1.takeWhile isPySpace
    if ws.isEmpty then none else
    let r2 := r1.drop ws.length
    let d := r2.takeWhile Char.isDigit
    if d.isEmpty then none else some (r2.drop d.length)
  else none

/-- One alternation step of `CXC\s+\d+/G/SYLL\s+\d+|Page\s+\d+`. -/
def matchFooter (l : Str) : Option Str :=
  match matchCxcFooter l with
  | some r => some r
  | none => matchPageFooter l

/-- Fueled scanner for the footer substitution: at each position try the
footer alternation; on a match, delete it and continue after it, otherwise
keep the character.  Each step consumes at least one character, so fuel
equal to the input length always suffices. -/
def removeFootersF : Nat → Str → Str
  | 0, l => l
  | _ + 1, [] => []
  | fuel + 1, c :: rest =>
    match matchFooter (c :: rest) with
    | some r => removeFootersF fuel r
    | none => c :: removeFootersF fuel rest

/-- Model of `re.sub(r'CXC\s+\d+/G/SYLL\s+\d+|Page\s+\d+', '', text)`
(`clean_text`, `main.py` line 81): delete every footer occurrence,
scanning left to right. -/
def removeFooters (l : Str) : Str := removeFootersF l.length l

/-- Model of `clean_text` (`main.py` lines 77-82): collapse whitespace, delete
footer patterns, strip.  (`if not text: return ""` is subsumed: the
pipeline maps the empty string to the empty string.) -/
def clean_text (s : Str) : Str := pyStrip (removeFooters (collapseWS s))

example : clean_text ("  1.   Explain  things ".data) = ("1. Explain things".data) := by decide
example : clean_text ("see CXC 21/G/SYLL 13 end".data) = ("see  end".data) := by decide
example : clean_text ("on Page 3".data) = ("on".data) := by decide

/-- The boundary `\b` holds before the scan position when the previous character (if
any) is not a word character (given that the current one is). -/
def boundaryBefore : Option Char → Bool
  | none => true
  | some p => !isWordChar p

/-- The boundary `\b` holds after `and` when the next character (if any) is not a word
character. -/
def boundaryAfter : Str → Bool
  | [] => true
  | d :: _ => !isWordChar d

/-- Scanner for `re.split(r'[;•]|\band\b', text)` (`split_into_items`,
`main.py` line 87): walk the string keeping the previous character for
the word-boundary test; split on `;`, `•`, or a word-bounded `and`. -/
def splitSepsAux : Nat → Option Char → Str → Str → List Str
  | _, _, acc, [] => [acc.reverse]
  | 0, _, acc, l => [acc.reverse ++ l]
  | fuel + 1, prev, acc, c :: rest =>
    if c == ';' || c == '•' then
      acc.reverse :: splitSepsAux fuel (some c) [] rest
    else if c == 'a' then
      match rest with
      | 'n' :: 'd' :: rest2 =>
        if boundaryBefore prev && boundaryAfter rest2 then
          acc.reverse :: splitSepsAux fuel (some 'd') [] rest2
        else
          splitSepsAux fuel (some 'a') ('a' :: acc) rest
      | _ => splitSepsAux fuel (some c) (c :: acc) rest
    else
      splitSepsAux fuel (some c) (c :: acc) rest

/-- Model of `re.split(r'[;•]|\band\b', text)`.  Fuel equal to the input length
always suffices, since every step consumes at least one character. -/
def splitSeps (text : Str) : List Str := splitSepsAux text.length none [] text

example : splitSeps ("Light reactions; dark reactions; chlorophyll role".data)
    = [("Light reactions".data), (" dark reactions".data), (" chlorophyll role".data)] := by decide
example : splitSeps ("sand and sea".data) = [("sand ".data), (" sea".data)] := by decide
example : splitSeps ("andes band".data) = [("andes band".data)] := by decide

/-- The alternatives of the `noise` pattern (`main.py` line 60). -/
def noiseWords : List Str :=
  [("TOTAL".data), ("SUMMARY".data), ("PAGE".data), ("TABLE".data), ("SECTION".data),
   ("SPECIFIC OBJECTIVES".data), ("CONTENT".data), ("SKILLS".data), ("ADDRESS".data),
   ("EMAIL".data), ("FAX".data), ("TELEPHONE".data), ("WEBSITE".data), ("REVISED".data),
   ("AMENDED".data), ("CORRIGENDA".data), ("APPENDIX".data)]

/-- Model of `re.match` of the anchored case-insensitive noise pattern
`^(TOTAL|...|APPENDIX)\s*$`: one alternative followed by whitespace
only.  No alternative is a prefix of another, so testing them in any
order is equivalent to the regex's ordered alternation. -/
def noiseMatch (s : Str) : Bool :=
  noiseWords.any (fun w => leadsWith w (pyUpper s) && (s.drop w.length).all isPySpace)

example : noiseMatch ("TOTAL".data) = true := by decide
example : noiseMatch ("Total   ".data) = true := by decide
example : noiseMatch ("PAGE 3".data) = false := by decide
example : noiseMatch ("1. TOTAL".data) = false := by decide

/-- Anchored match of the `objective_number` pattern
`^[A-Z]?\d+\.?\d*[a-z]?[\):]?\s+` (`main.py` line 58); returns the
remainder after the match.  Every optional element is disjoint from its
successors, so greedy matching without backtracking is faithful. -/
def matchObjNum (s : Str) : Option Str :=
  let s1 := match s with
            | c :: r => if c.isUpper then r else s
            | [] => s
  let digs := s1.takeWhile Char.isDigit
  if digs.isEmpty then none else
  let s2 := s1.drop digs.length
  let s3 := match s2 with
            | '.' :: r => r
            | _ => s2
  let s4 := s3.drop (s3.takeWhile Char.isDigit).length
  let s5 := match s4 with
            | c :: r => if c.isLower then r else s4
            | [] => s4
  let s6 := match s5 with
            | ')' :: r => r
            | ':' :: r => r
            | _ => s5
  let ws := s6.takeWhile isPySpace
  if ws.isEmpty then none else some (s6.drop ws.length)

/-- Model of `self.patterns['objective_number'].sub('', it)`: the pattern is
anchored, so at most the leading occurrence is removed. -/
def objNumSub (s : Str) : Str := (matchObjNum s).getD s

/-- Anchored match of the `bullet_point` pattern `^[\-\•\*]\s+`
(`main.py` line 59). -/
def matchBullet : Str → Option Str
  | c :: rest =>
    if c == '-' || c == '•' || c == '*' then
      let ws := rest.takeWhile isPySpace
      if ws.isEmpty then none else some (rest.drop ws.length)
    else none
  | [] => none

/-- Model of `self.patterns['bullet_point'].sub('', it)`. -/
def bulletSub (s : Str) : Str := (matchBullet s).getD s

example : objNumSub ("1. Explain photosynthesis".data) = ("Explain photosynthesis".data) := by decide
example : objNumSub ("A2.3b) item".data) = ("item".data) := by decide
example : objNumSub ("12 no".data) = ("no".data) := by decide
example : objNumSub ("no digits".data) = ("no digits".data) := by decide
example : bulletSub ("- item".data) = ("item".data) := by decide

/-- The post-filter transformation applied to each surviving fragment of
`split_into_items`: strip leading numbering, strip a bullet marker, trim. -/
def itemPost (it : Str) : Str := pyStrip (bulletSub (objNumSub it))

/-- Model of `split_into_items` (`main.py` lines 84-96): split on `;`, `•` and
word-bounded `and`; for each fragment, normalize with `clean_text`; keep
it only when the normalized fragment is longer than 4 characters and is
not a noise row; then strip numbering/bullet markers and trim. -/
def split_into_items (text : Str) : List Str :=
  if text.isEmpty then [] else
  let items := splitSeps text
  items.foldl
    (fun cleaned item =>
      let it := clean_text item
      if decide (4 < it.length) && !noiseMatch it then
        cleaned ++ [itemPost it]
      else cleaned)
    []

example : split_into_items ("Light reactions; dark reactions; chlorophyll role".data)
    = [("Light reactions".data), ("dark reactions".data), ("chlorophyll role".data)] := by decide
example : split_into_items ("1. abcd".data) = [("abcd".data)] := by decide
example : split_into_items ("1. TOTAL".data) = [("TOTAL".data)] := by decide
example : split_into_items [] = [] := by decide

/-- Scanner for `re.sub(r'\(.*?\)', '', text)` (`extract_keywords`,
`main.py` line 66).  `some buf` means an unclosed `(` was seen and `buf`
holds the characters read since (reversed).  Non-greedy `.` stops at the
first `)` and cannot cross a newline; an unclosable `(` is emitted
verbatim (any `(` inside `buf` would fail against the same newline or
end of input, so restoring `buf` verbatim is faithful). -/
def removeParensAux : Option Str → Str → Str
  | none, [] => []
  | some buf, [] => '(' :: buf.reverse
  | none, c :: rest =>
    if c == '(' then removeParensAux (some []) rest
    else c :: removeParensAux none rest
  | some buf, c :: rest =>
    if c == ')' then removeParensAux none rest
    else if c == '\n' then ('(' :: buf.reverse) ++ '\n' :: removeParensAux none rest
    else removeParensAux (some (c :: buf)) rest

/-- Model of `re.sub(r'\(.*?\)', '', text)`. -/
def removeParens (text : Str) : Str := removeParensAux none text

example : removeParens ("a (b c) d (e".data) = ("a  d (e".data) := by decide
example : removeParens ("a (b (c) d".data) = ("a  d".data) := by decide

/-- Scanner for `re.findall(r'\b[a-zA-Z]{3,}\b', text)`
(`extract_keywords`, `main.py` line 67): maximal alphabetic runs of
length at least 3 whose neighbours on both sides are not word
characters.  `runAcc` is the current alphabetic run (reversed) and
`okStart` records whether it began at a word boundary. -/
def alphaTokensAux (prev : Option Char) (runAcc : Str) (okStart : Bool) : Str → List Str
  | [] => if okStart && decide (3 ≤ runAcc.length) then [runAcc.reverse] else []
  | c :: rest =>
    if c.isAlpha then
      if runAcc.isEmpty then alphaTokensAux (some c) [c] (boundaryBefore prev) rest
      else alphaTokensAux (some c) (c :: runAcc) okStart rest
    else
      (if okStart && decide (3 ≤ runAcc.length) && !isWordChar c then [runAcc.reverse] else [])
        ++ alphaTokensAux (some c) [] true rest

/-- Model of `re.findall(r'\b[a-zA-Z]{3,}\b', text)`. -/
def alphaTokens (text : Str) : List Str := alphaTokensAux none [] true text

example : alphaTokens ("one two3 three-four do".data)
    = [("one".data), ("three".data), ("four".data)] := by decide

/-- Python string comparison `<`: lexicographic by code point. -/
def lexLt : Str → Str → Bool
  | [], [] => false
  | [], _ :: _ => true
  | _ :: _, [] => false
  | a :: as, b :: bs => a < b || (a == b && lexLt as bs)

def insertLex (w : Str) : List Str → List Str
  | [] => [w]
  | x :: xs => if lexLt w x then w :: x :: xs else x :: insertLex w xs

/-- Python `sorted` on a list of distinct strings. -/
def sortLex : List Str → List Str
  | [] => []
  | w :: rest => insertLex w (sortLex rest)

/-- Python `set(...)` membership collapse: keep one copy of each element. -/
def distinctAux (seen : List Str) : List Str → List Str
  | [] => []
  | w :: rest =>
    if seen.any (· == w) then distinctAux seen rest
    else w :: distinctAux (w :: seen) rest

/-- The stopword set of `extract_keywords` (`main.py` line 65). -/
def stopwords : List Str :=
  [("the".data), ("a".data), ("an".data), ("and".data), ("or".data), ("but".data),
   ("in".data), ("on".data), ("at".data), ("to".data), ("for".data), ("of".data),
   ("with".data), ("by".data), ("their".data), ("from".data), ("this".data),
   ("that".data)]

/-- Model of `extract_keywords` (`main.py` lines 63-68): delete parenthesised
spans, lowercase, tokenize word-bounded alphabetic runs of length ≥ 3,
drop stopwords, deduplicate, sort, keep the first 12. -/
def extract_keywords (text : Str) : List Str :=
  let words := alphaTokens (pyLower (removeParens text))
  (sortLex (distinctAux [] (words.filter (fun w => !stopwords.any (· == w))))).take 12

example : extract_keywords ("Explain the process (KC) of osmosis and osmosis".data)
    = [("explain".data), ("osmosis".data), ("process".data)] := by decide

/-- Maximal runs of word characters, for the skill-code pattern. -/
def wordRunsAux (runAcc : Str) : Str → List Str
  | [] => if runAcc.isEmpty then [] else [runAcc.reverse]
  | c :: rest =>
    if isWordChar c then wordRunsAux (c :: runAcc) rest
    else (if runAcc.isEmpty then [] else [runAcc.reverse]) ++ wordRunsAux [] rest

def wordRuns (text : Str) : List Str := wordRunsAux [] text

/-- The skill-code vocabulary `\b(KC|AK|AS|LI|UK|RE|OR|LI|MK|PS|LI)\b`
(`main.py` line 57), duplicates included as written. -/
def skillCodes : List Str :=
  [("KC".data), ("AK".data), ("AS".data), ("LI".data), ("UK".data), ("RE".data),
   ("OR".data), ("LI".data), ("MK".data), ("PS".data), ("LI".data)]

/-- Model of `extract_skills` (`main.py` lines 70-72): uppercase, find the
word-bounded skill codes (a two-letter code matches exactly when it is a
maximal word-character run), deduplicate, sort. -/
def extract_skills (text : Str) : List Str :=
  sortLex (distinctAux []
    (((wordRuns (pyUpper text)).filter (fun r => skillCodes.any (· == r)))))

example : extract_skills ("do x (KC) and y (AK) plus (KC)".data)
    = [("AK".data), ("KC".data)] := by decide

/-- Model of `generate_hash` (`main.py` lines 74-75): the first 10 characters of
the hex digest of the external MD5; the digest itself is the model
parameter `md5hex`. -/
def generate_hash (md5hex : Str → Str) (text : Str) : Str := (md5hex text).take 10

/-- The separator class `[:\-\s]` of the section/subsection patterns. -/
def sepClass (c : Char) : Bool := c == ':' || c == '-' || isPySpace c

/-- The name class `[A-Z\s\-]` under `re.IGNORECASE`: letters of either
case, whitespace, hyphen. -/
def nameClass (c : Char) : Bool := c.isAlpha || isPySpace c || c == '-'

/-- Case-insensitive anchored literal match (`w` given uppercase). -/
def icLeadsWith (w s : Str) : Bool := leadsWith w (pyUpper s)

/-- Backtracking for the boundary `[:\-\s]+([A-Z\s\-]{3,})`: the
separator takes `j` characters, longest first; the name group then takes
its maximal run, which must have length at least 3.  Returns the name
capture and the remainder. -/
def tryJ : Nat → Str → Option (Str × Str)
  | 0, _ => none
  | j + 1, r3 =>
    let r := r3.drop (j + 1)
    let nm := r.takeWhile nameClass
    if decide (3 ≤ nm.length) then some (nm, r.drop nm.length) else tryJ j r3

/-- Anchored match of the `section` pattern
`(SECTION|MODULE|UNIT)\s+([A-Z0-9]+)[:\-\s]+([A-Z\s\-]{3,})` with
`re.IGNORECASE` (`main.py` line 55).  The keyword alternatives start
with distinct letters, and `\s+`/`[A-Z0-9]+` are disjoint from their
neighbours, so only the separator/name boundary needs backtracking.
Returns the three captures (in original case) and the remainder. -/
def matchSectionAt (l : Str) : Option ((Str × Str × Str) × Str) :=
  match [("SECTION".data), ("MODULE".data), ("UNIT".data)].find? (fun w => icLeadsWith w l) with
  | none => none
  | some w =>
    let g1 := l.take w.length
    let r1 := l.drop w.length
    let ws := r1.takeWhile isPySpace
    if ws.isEmpty then none else
    let r2 := r1.drop ws.length
    let idr := r2.takeWhile Char.isAlphanum
    if idr.isEmpty then none else
    let r3 := r2.drop idr.length
    match tryJ (r3.takeWhile sepClass).length r3 with
    | none => none
    | some (nm, rest) => some ((g1, idr, nm), rest)

/-- Fueled scanner for `re.findall` of the section pattern: try a match
at every position, left to right, non-overlapping. -/
def sectionFindAux : Nat → Str → List (Str × Str × Str)
  | 0, _ => []
  | fuel + 1, l =>
    match l with
    | [] => []
    | c :: rest =>
      match matchSectionAt (c :: rest) with
      | some (caps, after) => caps :: sectionFindAux fuel after
      | none => sectionFindAux fuel rest

/-- Model of `self.patterns['section'].findall(text)`. -/
def sectionFindall (text : Str) : List (Str × Str × Str) := sectionFindAux text.length text

/-- Model of `f"{last[0]} {last[1]}: {last[2]}".strip()` (`main.py` line 108). -/
def buildSection (g : Str × Str × Str) : Str :=
  pyStrip (g.1 ++ ' ' :: g.2.1 ++ ':' :: ' ' :: g.2.2)

example : sectionFindall ("xx SECTION 1: ALGEBRA. Section 2 - GEOMETRY.".data)
    = [(("SECTION".data), ("1".data), ("ALGEBRA".data)),
       (("Section".data), ("2".data), ("GEOMETRY".data))] := by decide
example : buildSection (("Section".data), ("2".data), ("GEOMETRY".data))
    = ("Section 2: GEOMETRY".data) := by decide

/-- Backtracking over `\s+` for the subsection pattern: the whitespace
run gives up characters from the right when the rest of the pattern
(`\d*[:\-\s]+(name)`) cannot match. -/
def tryW : Nat → Str → Option (Str × Str)
  | 0, _ => none
  | w + 1, r1 =>
    let r2 := r1.drop (w + 1)
    let r3 := r2.drop (r2.takeWhile Char.isDigit).length
    match tryJ (r3.takeWhile sepClass).length r3 with
    | some res => some res
    | none => tryW w r1

/-- Anchored match of the `subsection` pattern
`(?:TOPIC|AREA|THEME)\s+\d*[:\-\s]+([A-Z\s\-]{3,})` with `re.IGNORECASE`
(`main.py` line 56); returns the single capture and the remainder. -/
def matchSubAt (l : Str) : Option (Str × Str) :=
  match [("TOPIC".data), ("AREA".data), ("THEME".data)].find? (fun w => icLeadsWith w l) with
  | none => none
  | some w =>
    let r1 := l.drop w.length
    tryW (r1.takeWhile isPySpace).length r1

/-- Fueled scanner for `re.findall` of the subsection pattern. -/
def subFindAux : Nat → Str → List Str
  | 0, _ => []
  | fuel + 1, l =>
    match l with
    | [] => []
    | c :: rest =>
      match matchSubAt (c :: rest) with
      | some (cap, after) => cap :: subFindAux fuel after
      | none => subFindAux fuel rest

/-- Model of `self.patterns['subsection'].findall(text)`. -/
def subFindall (text : Str) : List Str := subFindAux text.length text

example : subFindall ("TOPIC 3: GENETICS. THEME  - HEREDITY.".data)
    = [("GENETICS".data), ("HEREDITY".data)] := by decide
example : subFindall ("TOPIC GENETICS".data) = [] := by decide
example : subFindall ("TOPIC  GENETICS".data) = [("GENETICS".data)] := by decide

/-- The `Objective` dataclass (`main.py` lines 25-41). -/
structure Objective where
  id : Str
  «section» : Str
  subsection : Str
  objective : Str
  content : Str
  specific_objectives : List Str
  content_items : List Str
  skills : List Str
  difficulty : Nat
  page_number : Nat
  keywords : List Str
  hash : Str
  source_file : Str
  extraction_date : Str
deriving DecidableEq

/-- One PDF page as seen by the parser: its extracted text and the two
table-extraction results (ruled-line strategy, then text strategy),
which are produced by the external `pdfplumber` library.  A cell is
`none` for Python `None`. -/
structure Page where
  text : Str
  tablesLines : List (List (List (Option Str)))
  tablesText : List (List (List (Option Str)))

/-- Model of `" ".join([str(c) for c in row if c])` (`main.py` line 132). -/
def rowJoin (row : List (Option Str)) : Str :=
  List.intercalate [' '] ((row.filterMap id).filter (fun s => !s.isEmpty))

/-- The contact-metadata keywords of `main.py` line 150. -/
def contactKws : List Str :=
  [("ADDRESS".data), ("E-MAIL".data), ("TEL:".data), ("FAX:".data),
   ("WWW.".data), ("HTTP".data)]

/-- Model of `re.match(r'^\d+\.?\s*$', obj_text)` (`main.py` line 147): digits,
an optional dot, then only whitespace. -/
def pureNumMatch (s : Str) : Bool :=
  let digs := s.takeWhile Char.isDigit
  if digs.isEmpty then false else
  let r := s.drop digs.length
  let r2 := match r with
            | '.' :: t => t
            | _ => r
  r2.all isPySpace

/-- The body of the row loop of `extract_from_page` (`main.py` lines
130-173): filter noise/header rows, require two non-empty cells, filter
short, purely numeric, or contact-info objective cells, and build the
`Objective` candidate (with empty temporary id). -/
def processRow (md5hex : Str → Str) (now : Str) (cs css src : Str) (page_num : Nat)
    (row : List (Option Str)) : Option Objective :=
  let row_str := rowJoin row
  if noiseMatch row_str || row_str.isEmpty then none
  else if containsSub ("SPECIFIC OBJECTIVE".data) (pyUpper row_str)
       || containsSub ("CONTENT".data) (pyUpper row_str) then none
  else
  let cells := ((row.filterMap id).filter (fun s => !s.isEmpty)).map clean_text
  match cells with
  | obj_text :: cont_text :: _ =>
    if decide (obj_text.length < 20) then none
    else if pureNumMatch obj_text then none
    else if contactKws.any (fun kw => containsSub kw (pyUpper obj_text)) then none
    else
      let combined := obj_text ++ ' ' :: cont_text
      some
        { id := []
          «section» := cs
          subsection := css
          objective := obj_text
          content := cont_text
          specific_objectives := split_into_items obj_text
          content_items := split_into_items cont_text
          skills := extract_skills (obj_text ++ ' ' :: cont_text)
          difficulty := estimate_difficulty obj_text
          page_number := page_num
          keywords := extract_keywords combined
          hash := generate_hash md5hex combined
          source_file := src
          extraction_date := now }
  | _ => none

/-- Model of `extract_from_page` (`main.py` lines 98-175): update the sticky
section/subsection context from the last pattern match on the page (if
any), pick the ruled-line tables or fall back to the text-strategy
tables when the former are empty, and run the row loop over every
non-empty table.  Returns the candidates and the updated context. -/
def extract_from_page (md5hex : Str → Str) (now : Str) (p : Page) (page_num : Nat)
    (current_section current_subsection src : Str) :
    List Objective × Str × Str :=
  let cs := match sectionFindall p.text with
            | [] => current_section
            | m :: ms => buildSection ((m :: ms).getLastD m)
  let css := match subFindall p.text with
             | [] => current_subsection
             | m :: ms => pyStrip ((m :: ms).getLastD m)
  let tables := if p.tablesLines.isEmpty then p.tablesText else p.tablesLines
  let objs := tables.foldl
    (fun acc table =>
      if table.isEmpty then acc
      else acc ++ table.filterMap (processRow md5hex now cs css src page_num))
    []
  (objs, cs, css)

/-- The page loop of `parse_single_pdf` (`main.py` lines 206-211):
process pages in order with 1-based numbering, threading the sticky
section/subsection context, and concatenate the candidates. -/
def runPages (md5hex : Str → Str) (now src : Str) :
    List Page → Nat → Str → Str → List Objective
  | [], _, _, _ => []
  | p :: rest, n, cs, css =>
    let r := extract_from_page md5hex now p n cs css src
    r.1 ++ runPages md5hex now src rest (n + 1) r.2.1 r.2.2

/-- The deduplication loop of `parse_single_pdf` (`main.py` lines
213-219): insert each candidate into a dict keyed by its hash unless the
key is present; the dict's values come back in insertion order.  `seen`
is the set of keys inserted so far. -/
def dedupByHash (seen : List Str) : List Objective → List Objective
  | [] => []
  | o :: rest =>
    if seen.any (· == o.hash) then dedupByHash seen rest
    else o :: dedupByHash (o.hash :: seen) rest

/-- The filename-keyword to subject-code table of `main.py` lines
224-228, in dictionary insertion order. -/
def mappings : List (Str × Str) :=
  [(("BIO".data), ("BIO".data)), (("CHEM".data), ("CHEM".data)),
   (("PHYS".data), ("PHYS".data)), (("MATH".data), ("MATH".data)),
   (("ENG".data), ("ENG".data)), (("BUSINESS".data), ("POB".data)),
   (("POB".data), ("POB".data)), (("ECON".data), ("ECON".data)),
   (("IT".data), ("IT".data)), (("SOC".data), ("SOC".data)),
   (("GEO".data), ("GEO".data)), (("HIST".data), ("HIST".data)),
   (("AGRI".data), ("AGRI".data))]

/-- The prefix loop of `parse_single_pdf` (`main.py` lines 221-232):
the first mapping whose keyword occurs in the uppercased filename wins;
default `"GEN"`. -/
def derivePfx (fname : Str) : Str :=
  match mappings.find? (fun kv => containsSub kv.1 (pyUpper fname)) with
  | some kv => kv.2
  | none => ("GEN".data)

/-- Decimal digits of a natural number, as Python's `str(n)`; fuel
equal to `n + 1` always suffices. -/
def natDigitsF : Nat → Nat → Str
  | 0, _ => []
  | fuel + 1, n =>
    if n < 10 then [Char.ofNat (48 + n)]
    else natDigitsF fuel (n / 10) ++ [Char.ofNat (48 + n % 10)]

def natDigits (n : Nat) : Str := natDigitsF (n + 1) n

/-- Python `f"{idx:05d}"`: zero-pad the decimal form to width at
least 5. -/
def pad5 (n : Nat) : Str :=
  let s := natDigits n
  if s.length < 5 then List.replicate (5 - s.length) '0' ++ s else s

example : pad5 7 = ("00007".data) := by decide
example : pad5 123456 = ("123456".data) := by decide

/-- The id-assignment loop of `parse_single_pdf` (`main.py` lines
234-235): `enumerate(..., 1)` with `obj.id = f"{prefix}-{idx:05d}"`. -/
def assignIds (pfx : Str) : Nat → List Objective → List Objective
  | _, [] => []
  | idx, o :: rest => { o with id := pfx ++ '-' :: pad5 idx } :: assignIds pfx (idx + 1) rest

/-- One input document: `pdf_path.name` and its modification time. -/
structure PdfFile where
  name : Str
  mtime : Nat

/-- The per-document output artifact `<stem>.json`: its modification
time, its raw bytes, and the record array `json.load` reads from it. -/
structure Artifact where
  mtime : Nat
  bytes : List Nat
  dataR : List Objective

/-- The dict returned by `parse_single_pdf` (`main.py` lines 197, 243-249
and 253).  A result with no `skipped` key (`error` branch) behaves as
`skipped = false`, since `dict.get` yields falsy `None`. -/
structure ParseResult where
  filename : Str
  objectives : List Objective
  count : Nat
  success : Bool
  skipped : Bool
  error : Option Str
deriving DecidableEq

/-- The body of `parse_single_pdf` after the incremental check
(`main.py` lines 199-253).  `pages` is the outcome of
`pdfplumber.open`: a page list, or the exception message.  Returns the
result dict together with the state of the output artifact after the
call (`encode`/`writeMtime` stand for `json.dump` and the write time). -/
def parseBody (md5hex : Str → Str) (now : Str) (encode : List Objective → List Nat)
    (writeMtime : Nat) (pdf : PdfFile) (pages : Except Str (List Page))
    (cached : Option Artifact) : ParseResult × Option Artifact :=
  match pages with
  | .error e =>
    ({ filename := pdf.name, objectives := [], count := 0, success := false,
       skipped := false, error := some e }, cached)
  | .ok pgs =>
    let extracted := runPages md5hex now pdf.name pgs 1 ("General".data) ("Unknown".data)
    let uniq := dedupByHash [] extracted
    let final := assignIds (derivePfx pdf.name) 1 uniq
    ({ filename := pdf.name, objectives := final, count := final.length, success := true,
       skipped := false, error := none },
     some { mtime := writeMtime, bytes := encode final, dataR := final })

/-- Model of `parse_single_pdf` (`main.py` lines 188-253): when reprocessing is
not forced, a prior artifact exists, and the source's modification time
is strictly below the artifact's, return the cached records unparsed and
leave the artifact untouched; otherwise run the body. -/
def parse_single_pdf (md5hex : Str → Str) (now : Str) (encode : List Objective → List Nat)
    (writeMtime : Nat) (pdf : PdfFile) (pages : Except Str (List Page)) (force : Bool)
    (cached : Option Artifact) : ParseResult × Option Artifact :=
  match force, cached with
  | false, some a =>
    if pdf.mtime < a.mtime then
      ({ filename := pdf.name, objectives := a.dataR, count := a.dataR.length,
         success := true, skipped := true, error := none }, some a)
    else parseBody md5hex now encode writeMtime pdf pages cached
  | _, _ => parseBody md5hex now encode writeMtime pdf pages cached

/-- The `stats` block of `processing_summary.json` (`main.py` lines
286-295). -/
structure Stats where
  total_files : Nat
  processed : Nat
  skipped : Nat
  failed : Nat
  total_objectives : Nat
deriving DecidableEq

/-- Model of `results[result['filename']] = result`: dict insert-or-replace that
keeps the original key position. -/
def insertResult (m : List (Str × ParseResult)) (r : ParseResult) : List (Str × ParseResult) :=
  if m.any (fun p => p.1 == r.filename) then
    m.map (fun p => if p.1 == r.filename then (p.1, r) else p)
  else m ++ [(r.filename, r)]

/-- The collection loop of `process_directory` (`main.py` lines
269-276): results arrive in completion order `rs`; each is stored in the
`results` dict and its objectives are appended to `all_objectives`. -/
def collectResults (rs : List ParseResult) : List (Str × ParseResult) × List Objective :=
  rs.foldl (fun acc r => (insertResult acc.1 r, acc.2 ++ r.objectives)) ([], [])

/-- Model of `process_directory` (`main.py` lines 255-301), given the per-file
results in completion order: build the results dict and the combined
array, and compute the summary stats (`total_files` is the number of
submitted files, one result per file). -/
def process_directory (rs : List ParseResult) : Stats × List Objective :=
  let c := collectResults rs
  let vals := c.1.map Prod.snd
  ({ total_files := rs.length,
     processed := vals.countP (fun r => r.success && !r.skipped),
     skipped := vals.countP (fun r => r.skipped),
     failed := vals.countP (fun r => !r.success),
     total_objectives := c.2.length }, c.2)

/-! ## Claim theorems -/

/-- Claim C8: for the worked-example row — objective cell
`"1. Explain the process of photosynthesis in green plants"`, content
cell `"Light reactions; dark reactions; chlorophyll role"` — the
produced record retains the raw objective text, has
`specific_objectives = ["Explain the process of photosynthesis in green
plants"]`, `difficulty = 2`, and
`content_items = ["Light reactions", "dark reactions", "chlorophyll
role"]`. -/
theorem C8_worked_example :
    (processRow (fun s => s) [] ("General".data) ("Unknown".data) ("bio.pdf".data) 1
      [some ("1. Explain the process of photosynthesis in green plants".data),
       some ("Light reactions; dark reactions; chlorophyll role".data)]).map
      (fun o => (o.objective, o.specific_objectives, o.difficulty, o.content_items))
    = some (("1. Explain the process of photosynthesis in green plants".data),
            [("Explain the process of photosynthesis in green plants".data)],
            2,
            [("Light reactions".data), ("dark reactions".data), ("chlorophyll role".data)]) := by
  decide

/-- Claim C2: `estimate_difficulty` lowercases its input, tests the three
keyword tiers in the order 3, 2, 1 by substring match, returns the first
(hence highest) tier with a match, and defaults to 1; any text with a
tier-3 keyword yields 3 regardless of other keywords, and the result is
always in {1,2,3}. -/
theorem C2_estimate_difficulty_tiers (s : Str) (L3 L2 L1 : List Str)
    (hL : levels = [(3, L3), (2, L2), (1, L1)]) :
    (L3.any (fun kw => containsSub kw (pyLower s)) = true → estimate_difficulty s = 3)
    ∧ (L3.any (fun kw => containsSub kw (pyLower s)) = false →
       L2.any (fun kw => containsSub kw (pyLower s)) = true → estimate_difficulty s = 2)
    ∧ (L3.any (fun kw => containsSub kw (pyLower s)) = false →
       L2.any (fun kw => containsSub kw (pyLower s)) = false →
       L1.any (fun kw => containsSub kw (pyLower s)) = true → estimate_difficulty s = 1)
    ∧ (L3.any (fun kw => containsSub kw (pyLower s)) = false →
       L2.any (fun kw => containsSub kw (pyLower s)) = false →
       L1.any (fun kw => containsSub kw (pyLower s)) = false → estimate_difficulty s = 1)
    ∧ (estimate_difficulty s = 1 ∨ estimate_difficulty s = 2 ∨ estimate_difficulty s = 3) := by
  have hval : estimate_difficulty s =
      match levels.find? (fun lk => lk.2.any (fun kw => containsSub kw (pyLower s))) with
      | some lk => lk.1
      | none => 1 := rfl
  rw [hL] at hval
  cases h3 : L3.any (fun kw => containsSub kw (pyLower s)) <;>
    cases h2 : L2.any (fun kw => containsSub kw (pyLower s)) <;>
      cases h1 : L1.any (fun kw => containsSub kw (pyLower s)) <;>
        simp [List.find?, h3, h2, h1] at hval <;>
          simp [h3, h2, h1, hval]

/-- Witness for C2: the text `"Analyse and list the parts"` contains the
tier-3 keyword `analyse` together with tier-1 keywords, and gets
difficulty 3. -/
theorem C2_witness : estimate_difficulty ("Analyse and list the parts".data) = 3 :=
  (C2_estimate_difficulty_tiers ("Analyse and list the parts".data) _ _ _ rfl).1 (by decide)

/-- Claim C3: when a prior artifact exists, the source's modification time
is strictly below the artifact's, and reprocessing is not forced,
`parse_single_pdf` returns the cached records (marked skipped, count
equal to the cached array length) and leaves the artifact byte-for-byte
untouched. -/
theorem C3_incremental_skip (md5hex : Str → Str) (now : Str)
    (encode : List Objective → List Nat) (writeMtime : Nat) (pdf : PdfFile)
    (pages : Except Str (List Page)) (a : Artifact) (h : pdf.mtime < a.mtime) :
    parse_single_pdf md5hex now encode writeMtime pdf pages false (some a)
      = ({ filename := pdf.name, objectives := a.dataR, count := a.dataR.length,
           success := true, skipped := true, error := none }, some a) := by
  simp [parse_single_pdf, h]

/-- Witness for C3: a concrete file older than its cached artifact is
skipped and the artifact (bytes included) is returned unchanged. -/
theorem C3_witness :
    parse_single_pdf (fun s => s) [] (fun _ => []) 9
      { name := ("bio.pdf".data), mtime := 3 } (Except.ok []) false
      (some { mtime := 5, bytes := [1, 2], dataR := [] })
    = ({ filename := ("bio.pdf".data), objectives := [], count := 0,
         success := true, skipped := true, error := none },
       some { mtime := 5, bytes := [1, 2], dataR := [] }) :=
  C3_incremental_skip (fun s => s) [] (fun _ => []) 9
    { name := ("bio.pdf".data), mtime := 3 } (Except.ok [])
    { mtime := 5, bytes := [1, 2], dataR := [] } (by decide)

/-- Claim C9: `extract_from_page` leaves the incoming section
(resp. subsection) context unchanged when the page text has no
section (resp. subsection) match, and otherwise replaces it with the
value built from the last match on the page. -/
theorem C9_sticky_context (md5hex : Str → Str) (now : Str) (p : Page) (pn : Nat)
    (cs css src : Str) :
    ((sectionFindall p.text = [] →
        (extract_from_page md5hex now p pn cs css src).2.1 = cs)
    ∧ (∀ ms m, sectionFindall p.text = ms ++ [m] →
        (extract_from_page md5hex now p pn cs css src).2.1 = buildSection m))
    ∧ ((subFindall p.text = [] →
        (extract_from_page md5hex now p pn cs css src).2.2 = css)
    ∧ (∀ ms m, subFindall p.text = ms ++ [m] →
        (extract_from_page md5hex now p pn cs css src).2.2 = pyStrip m)) := by
  refine ⟨⟨fun h => ?_, fun ms m h => ?_⟩, ⟨fun h => ?_, fun ms m h => ?_⟩⟩
  · simp [extract_from_page, h]
  · cases ms with
    | nil => simp [extract_from_page, h]
    | cons m0 ms0 =>
      have h2 : sectionFindall p.text = m0 :: (ms0 ++ [m]) := by simpa using h
      have h3 : (m0 :: (ms0 ++ [m])).getLast? = some m := by
        rw [show m0 :: (ms0 ++ [m]) = (m0 :: ms0) ++ [m] by simp]
        exact List.getLast?_concat _
      simp [extract_from_page, h2, h3]
  · simp [extract_from_page, h]
  · cases ms with
    | nil => simp [extract_from_page, h]
    | cons m0 ms0 =>
      have h2 : subFindall p.text = m0 :: (ms0 ++ [m]) := by simpa using h
      have h3 : (m0 :: (ms0 ++ [m])).getLast? = some m := by
        rw [show m0 :: (ms0 ++ [m]) = (m0 :: ms0) ++ [m] by simp]
        exact List.getLast?_concat _
      simp [extract_from_page, h2, h3]

/-- Witness for C9: a page carrying two section headers ends with the
context built from the second (last) one; its lone topic header sets the
subsection. -/
theorem C9_witness :
    (extract_from_page (fun s => s) [] 
      { text := ("xx SECTION 1: ALGEBRA. Section 2 - GEOMETRY. TOPIC 3: GENETICS.".data),
        tablesLines := [], tablesText := [] } 1
      ("General".data) ("Unknown".data) ("m.pdf".data)).2.1
      = ("SECTION 1: ALGEBRA".data) ∨
    (extract_from_page (fun s => s) []
      { text := ("xx SECTION 1: ALGEBRA. Section 2 - GEOMETRY. TOPIC 3: GENETICS.".data),
        tablesLines := [], tablesText := [] } 1
      ("General".data) ("Unknown".data) ("m.pdf".data)).2.1
      = ("Section 2: GEOMETRY".data) := by
  refine Or.inr ?_
  have h := ((C9_sticky_context (fun s => s) []
    { text := ("xx SECTION 1: ALGEBRA. Section 2 - GEOMETRY. TOPIC 3: GENETICS.".data),
      tablesLines := [], tablesText := [] } 1
    ("General".data) ("Unknown".data) ("m.pdf".data)).1.2)
    [(("SECTION".data), ("1".data), ("ALGEBRA".data))]
    (("Section".data), ("2".data), ("GEOMETRY".data)) (by decide)
  rw [h]
  decide

/-- A filtering/mapping `foldl` that appends to its accumulator equals
the accumulator followed by the filter/map pipeline. -/
theorem foldl_filter_map_append {α β : Type} (f : α → β) (p : β → Bool) (g : β → β) :
    ∀ (l : List α) (acc : List β),
      l.foldl (fun cl item => if p (f item) then cl ++ [g (f item)] else cl) acc
        = acc ++ ((l.map f).filter p).map g
  | [], acc => by simp
  | item :: rest, acc => by
    cases hp : p (f item) <;>
      simp [List.foldl_cons, hp, foldl_filter_map_append f p g rest, List.append_assoc]

/-- Claim C5 (amended): `split_into_items` equals the pipeline that splits
on `;`/`•`/word-bounded `and`, normalizes each fragment with
`clean_text`, keeps exactly the fragments that are longer than 4
characters and are not noise rows — both tested on the normalized
fragment *before* prefix stripping — and then strips
numbering/bullet prefixes and trims, preserving input order. -/
theorem C5_split_items_pipeline (text : Str) :
    split_into_items text
      = (((splitSeps text).map clean_text).filter
          (fun it => decide (4 < it.length) && !noiseMatch it)).map itemPost := by
  cases text with
  | nil => decide
  | cons c rest =>
    have hne : (c :: rest : Str).isEmpty = false := rfl
    simp only [split_into_items, hne, Bool.false_eq_true, if_false]
    exact foldl_filter_map_append clean_text
      (fun it => decide (4 < it.length) && !noiseMatch it) itemPost (splitSeps (c :: rest)) []

/-- Claim C5 counterexample: the claim as stated — every output item is
longer than 4 characters *after* prefix stripping — fails: the fragment
`"1. abcd"` passes the length check before stripping, and the output
item `"abcd"` has length 4. -/
theorem C5_counterexample :
    ("abcd".data) ∈ split_into_items ("1. abcd".data)
    ∧ ¬ (4 < ("abcd".data).length) := by decide

/-- The head of `dropWhile p` cannot satisfy `p`. -/
theorem head?_dropWhile_false {α : Type} (p : α → Bool) :
    ∀ (l : List α) (a : α), (l.dropWhile p).head? = some a → p a = false := by
  intro l
  induction l with
  | nil => intro a h; simp [List.dropWhile] at h
  | cons c rest ih =>
    intro a h
    rw [List.dropWhile_cons] at h
    by_cases hc : p c = true
    · rw [if_pos hc] at h
      exact ih a h
    · rw [if_neg hc] at h
      simp only [List.head?_cons, Option.some.injEq] at h
      subst h
      exact Bool.not_eq_true _ ▸ hc

/-- The function `pyStrip` leaves no trailing whitespace. -/
theorem pyStrip_getLast_not_space (s : Str) (c : Char)
    (h : (pyStrip s).getLast? = some c) : isPySpace c = false := by
  unfold pyStrip at h
  rw [List.getLast?_reverse] at h
  exact head?_dropWhile_false isPySpace _ c h

/-- Dropping a proper amount keeps the last element. -/
theorem getLast?_drop_of_ne_nil {α : Type} (s : List α) (k : Nat)
    (h : s.drop k ≠ []) : (s.drop k).getLast? = s.getLast? := by
  conv_rhs => rw [← List.take_append_drop k s]
  rw [List.getLast?_append]
  cases hl : (s.drop k).getLast? with
  | none => exact absurd (List.getLast?_eq_none_iff.mp hl) h
  | some a => rfl

/-- A string without trailing whitespace and of length at least 20
cannot match the noise pattern: every noise alternative has at most 19
characters, so a match would force trailing whitespace. -/
theorem noiseMatch_eq_false_of_stripped (s : Str)
    (hlast : ∀ c, s.getLast? = some c → isPySpace c = false)
    (hlen : 20 ≤ s.length) : noiseMatch s = false := by
  by_contra hcon
  rw [Bool.not_eq_false] at hcon
  unfold noiseMatch at hcon
  rw [List.any_eq_true] at hcon
  obtain ⟨w, hw, hcond⟩ := hcon
  rw [Bool.and_eq_true] at hcond
  obtain ⟨-, hall⟩ := hcond
  have hwlen : w.length ≤ 19 := by fin_cases hw <;> decide
  have hne : s.drop w.length ≠ [] := by
    intro hnil
    have := congrArg List.length hnil
    rw [List.length_drop] at this
    simp at this
    omega
  have hlast2 := getLast?_drop_of_ne_nil s w.length hne
  cases hl : (s.drop w.length).getLast? with
  | none => exact absurd (List.getLast?_eq_none_iff.mp hl) hne
  | some a =>
    have hmem : a ∈ s.drop w.length := List.mem_of_getLast?_eq_some hl
    have hsp : isPySpace a = true := by
      rw [List.all_eq_true] at hall
      exact hall a hmem
    have : isPySpace a = false := hlast a (by rw [← hlast2, hl])
    rw [this] at hsp
    exact Bool.false_ne_true hsp

/-- Claim C6 (amended): the noise filter acts at row level — a row whose
joined cell text matches the noise pattern yields no record — and the
`objective` field of a produced record never matches the noise pattern
(the 20-character minimum rules every noise alternative out).  A
noise-matching string *can*, however, appear inside
`specific_objectives`/`content_items`, because the splitter tests noise
before prefix stripping (see `C6_counterexample`). -/
theorem C6_noise_row_excluded (md5hex : Str → Str) (now cs css src : Str) (pn : Nat)
    (row : List (Option Str)) :
    (noiseMatch (rowJoin row) = true →
      processRow md5hex now cs css src pn row = none)
    ∧ (∀ o, processRow md5hex now cs css src pn row = some o →
      noiseMatch o.objective = false) := by
  constructor
  · intro h
    simp [processRow, h]
  · intro o h
    unfold processRow at h
    dsimp only at h
    split at h
    · exact absurd h (by simp)
    · split at h
      · exact absurd h (by simp)
      · split at h
        · rename_i obj_text cont_text tail heq
          split at h
          · exact absurd h (by simp)
          · split at h
            · exact absurd h (by simp)
            · split at h
              · exact absurd h (by simp)
              · rename_i hlen _ _
                simp only [Option.some.injEq] at h
                obtain ⟨c0, l0, -, hc0, -⟩ := List.map_eq_cons_iff.mp heq
                have hobj : o.objective = obj_text := by rw [← h]
                rw [hobj, ← hc0]
                refine noiseMatch_eq_false_of_stripped _ ?_ ?_
                · exact fun c hc => pyStrip_getLast_not_space _ c hc
                · rw [hc0]
                  simp only [decide_eq_true_eq, Nat.not_lt] at hlen
                  exact hlen
        · exact absurd h (by simp)

/-- Claim C6 counterexample: a content cell `"1. TOTAL"` passes the
pre-strip noise check, and after numbering is stripped the
noise-matching string `"TOTAL"` appears inside `content_items` of the
produced record, contradicting the claim. -/
theorem C6_counterexample :
    ((processRow (fun s => s) [] ("General".data) ("Unknown".data) ("f.pdf".data) 1
      [some ("Explain the water cycle processes fully".data),
       some ("1. TOTAL".data)]).map (fun o => o.content_items)
    = some [("TOTAL".data)])
    ∧ noiseMatch ("TOTAL".data) = true := by decide

/-- Witness for C6: a one-cell row that is exactly `"TOTAL"` matches the
noise pattern and produces no record. -/
theorem C6_witness :
    processRow (fun s => s) [] ("General".data) ("Unknown".data) ("f.pdf".data) 1
      [some ("TOTAL".data)] = none :=
  (C6_noise_row_excluded (fun s => s) [] ("General".data) ("Unknown".data)
    ("f.pdf".data) 1 [some ("TOTAL".data)]).1 (by decide)

theorem any_beq_iff_mem (seen : List Str) (x : Str) :
    (seen.any (· == x)) = true ↔ x ∈ seen := by
  simp [List.any_eq_true]

/-- Elements surviving deduplication have hashes outside `seen`. -/
theorem mem_dedup_hash_not_seen :
    ∀ (seen : List Str) (l : List Objective) (x : Objective),
      x ∈ dedupByHash seen l → x.hash ∉ seen := by
  intro seen l
  induction l generalizing seen with
  | nil => intro x hx; simp [dedupByHash] at hx
  | cons o rest ih =>
    intro x hx
    unfold dedupByHash at hx
    by_cases ho : (seen.any (· == o.hash)) = true
    · rw [if_pos ho] at hx
      exact ih seen x hx
    · rw [if_neg ho] at hx
      rcases List.mem_cons.mp hx with hx | hx
      · subst hx
        exact fun hmem => ho ((any_beq_iff_mem seen x.hash).mpr hmem)
      · intro hmem
        exact ih (o.hash :: seen) x hx (List.mem_cons_of_mem _ hmem)

/-- Deduplication yields a sublist: output order is first-seen order. -/
theorem dedup_sublist : ∀ (seen : List Str) (l : List Objective),
    (dedupByHash seen l).Sublist l := by
  intro seen l
  induction l generalizing seen with
  | nil => simp [dedupByHash]
  | cons o rest ih =>
    unfold dedupByHash
    by_cases ho : (seen.any (· == o.hash)) = true
    · rw [if_pos ho]
      exact (ih seen).cons o
    · rw [if_neg ho]
      exact (ih (o.hash :: seen)).cons₂ o

/-- No two deduplicated records share a hash. -/
theorem dedup_hashes_nodup : ∀ (seen : List Str) (l : List Objective),
    ((dedupByHash seen l).map (fun o => o.hash)).Nodup := by
  intro seen l
  induction l generalizing seen with
  | nil => simp [dedupByHash]
  | cons o rest ih =>
    unfold dedupByHash
    by_cases ho : (seen.any (· == o.hash)) = true
    · rw [if_pos ho]
      exact ih seen
    · rw [if_neg ho]
      refine List.nodup_cons.mpr ⟨?_, ih (o.hash :: seen)⟩
      intro hmem
      obtain ⟨x, hx, hhash⟩ := List.mem_map.mp hmem
      exact mem_dedup_hash_not_seen _ _ x hx (hhash ▸ List.mem_cons_self _ _)

/-- Exactly one output record carries the hash of any given candidate. -/
theorem dedup_countP : ∀ (seen : List Str) (l : List Objective) (c : Objective),
    c ∈ l → c.hash ∉ seen →
    (dedupByHash seen l).countP (fun x => x.hash == c.hash) = 1 := by
  intro seen l
  induction l generalizing seen with
  | nil => intro c hc; simp at hc
  | cons o rest ih =>
    intro c hc hseen
    unfold dedupByHash
    by_cases ho : (seen.any (· == o.hash)) = true
    · rw [if_pos ho]
      rcases List.mem_cons.mp hc with hc | hc
      · subst hc
        exact absurd ((any_beq_iff_mem seen c.hash).mp ho) hseen
      · exact ih seen c hc hseen
    · rw [if_neg ho]
      by_cases hoc : o.hash = c.hash
      · rw [List.countP_cons_of_pos _ _ (by simpa using hoc)]
        have hzero : (dedupByHash (o.hash :: seen) rest).countP
            (fun x => x.hash == c.hash) = 0 := by
          rw [List.countP_eq_zero]
          intro x hx
          have := mem_dedup_hash_not_seen _ _ x hx
          simp only [List.mem_cons, not_or] at this
          simpa [hoc] using fun h => this.1 (by rw [h, hoc])
        rw [hzero]
      · rw [List.countP_cons_of_neg _ _ (by simpa using hoc)]
        rcases List.mem_cons.mp hc with hc | hc
        · exact absurd (by rw [hc] : o.hash = c.hash) hoc
        · refine ih (o.hash :: seen) c hc ?_
          simp only [List.mem_cons, not_or]
          exact ⟨fun h => hoc h.symm, hseen⟩

/-- Every surviving record is the first candidate carrying its hash. -/
theorem dedup_find_first : ∀ (seen : List Str) (l : List Objective) (x : Objective),
    x ∈ dedupByHash seen l → l.find? (fun c => c.hash == x.hash) = some x := by
  intro seen l
  induction l generalizing seen with
  | nil => intro x hx; simp [dedupByHash] at hx
  | cons o rest ih =>
    intro x hx
    unfold dedupByHash at hx
    by_cases ho : (seen.any (· == o.hash)) = true
    · rw [if_pos ho] at hx
      have hxs := mem_dedup_hash_not_seen _ _ x hx
      have hne : (o.hash == x.hash) = false := by
        rw [beq_eq_false_iff_ne]
        intro h
        exact hxs (h ▸ (any_beq_iff_mem seen o.hash).mp ho)
      rw [List.find?_cons_of_neg _ (by simp [hne]), ih seen x hx]
    · rw [if_neg ho] at hx
      rcases List.mem_cons.mp hx with hx | hx
      · subst hx
        rw [List.find?_cons_of_pos _ (by simp)]
      · have hxs := mem_dedup_hash_not_seen _ _ x hx
        have hne : (o.hash == x.hash) = false := by
          rw [beq_eq_false_iff_ne]
          intro h
          exact hxs (h ▸ List.mem_cons_self _ _)
        rw [List.find?_cons_of_neg _ (by simp [hne]), ih _ x hx]

/-- Forget the `id` field (id assignment happens only after dedup). -/
def eraseId (o : Objective) : Objective := { o with id := [] }

theorem eraseId_hash (o : Objective) : (eraseId o).hash = o.hash := rfl

theorem eraseId_eq_self {o : Objective} (h : o.id = []) : eraseId o = o := by
  cases o
  simp only [eraseId]
  simp_all

theorem assignIds_map_hash : ∀ (pfx : Str) (i : Nat) (l : List Objective),
    (assignIds pfx i l).map (fun o => o.hash) = l.map (fun o => o.hash) := by
  intro pfx i l
  induction l generalizing i with
  | nil => rfl
  | cons o rest ih => simp [assignIds, ih]

theorem assignIds_map_eraseId : ∀ (pfx : Str) (i : Nat) (l : List Objective),
    (assignIds pfx i l).map eraseId = l.map eraseId := by
  intro pfx i l
  induction l generalizing i with
  | nil => rfl
  | cons o rest ih =>
    simp only [assignIds, List.map_cons, ih]
    rfl

theorem assignIds_countP_hash (p : Str → Bool) :
    ∀ (pfx : Str) (i : Nat) (l : List Objective),
    (assignIds pfx i l).countP (fun x => p x.hash) = l.countP (fun x => p x.hash) := by
  intro pfx i l
  induction l generalizing i with
  | nil => rfl
  | cons o rest ih =>
    simp only [assignIds, List.countP_cons, ih]

theorem map_eraseId_of_blank {l : List Objective} (h : ∀ o ∈ l, o.id = []) :
    l.map eraseId = l := by
  rw [show l.map eraseId = l.map id from
    List.map_congr_left (fun o ho => eraseId_eq_self (h o ho))]
  exact List.map_id l

/-- A produced record's hash is the digest of its own combined
objective-plus-content text, so identical combined text forces identical
hashes. -/
theorem processRow_hash (md5hex : Str → Str) (now cs css src : Str) (pn : Nat)
    (row : List (Option Str)) (o : Objective)
    (h : processRow md5hex now cs css src pn row = some o) :
    o.hash = generate_hash md5hex (o.objective ++ ' ' :: o.content) := by
  unfold processRow at h
  dsimp only at h
  split at h
  · exact absurd h (by simp)
  · split at h
    · exact absurd h (by simp)
    · split at h
      · split at h
        · exact absurd h (by simp)
        · split at h
          · exact absurd h (by simp)
          · split at h
            · exact absurd h (by simp)
            · simp only [Option.some.injEq] at h
              rw [← h]
      · exact absurd h (by simp)

/-- Claim C1: over the final stage of a document parse (dedup by hash,
then id assignment), with candidates whose temporary ids are blank (as
`processRow` produces them): the output has pairwise distinct hashes;
its records — ids aside — form a sublist of the candidates (first-seen
order); each candidate's hash is represented exactly once; the record
kept for each hash is the first-encountered candidate with it; and a
candidate's hash is determined by its combined objective+content text,
so identical combined text yields equal hashes. -/
theorem C1_dedup_unique_first (pfx : Str) (cands : List Objective)
    (hid : ∀ o ∈ cands, o.id = ([] : Str)) :
    (((assignIds pfx 1 (dedupByHash [] cands)).map (fun o => o.hash)).Nodup
    ∧ ((assignIds pfx 1 (dedupByHash [] cands)).map eraseId).Sublist cands)
    ∧ ((∀ c ∈ cands,
        (assignIds pfx 1 (dedupByHash [] cands)).countP (fun x => x.hash == c.hash) = 1)
    ∧ (∀ x ∈ assignIds pfx 1 (dedupByHash [] cands),
        cands.find? (fun c => c.hash == x.hash) = some (eraseId x)))
    ∧ (∀ (md5hex : Str → Str) (now cs css src : Str) (pn : Nat)
        (row : List (Option Str)) (o : Objective),
        processRow md5hex now cs css src pn row = some o →
        o.hash = generate_hash md5hex (o.objective ++ ' ' :: o.content)) := by
  have hdid : ∀ o ∈ dedupByHash [] cands, o.id = ([] : Str) :=
    fun o ho => hid o ((dedup_sublist [] cands).mem ho)
  have hmap : (assignIds pfx 1 (dedupByHash [] cands)).map eraseId
      = dedupByHash [] cands := by
    rw [assignIds_map_eraseId, map_eraseId_of_blank hdid]
  refine ⟨⟨?_, ?_⟩, ⟨?_, ?_⟩, ?_⟩
  · rw [assignIds_map_hash]
    exact dedup_hashes_nodup [] cands
  · rw [hmap]
    exact dedup_sublist [] cands
  · intro c hc
    exact (assignIds_countP_hash (fun s => s == c.hash) pfx 1 (dedupByHash [] cands)).trans
      (dedup_countP [] cands c hc (by simp))
  · intro x hx
    have hex : eraseId x ∈ dedupByHash [] cands := by
      rw [← hmap]
      exact List.mem_map_of_mem eraseId hx
    have := dedup_find_first [] cands (eraseId x) hex
    rwa [eraseId_hash] at this
  · exact processRow_hash

/-- Witness for C1 at three concrete candidates, two of which share a
hash: the output hashes are pairwise distinct. -/
theorem C1_witness :
    ((assignIds ("GEN".data) 1 (dedupByHash []
      [{ id := [], «section» := [], subsection := [], objective := [], content := [],
         specific_objectives := [], content_items := [], skills := [], difficulty := 1,
         page_number := 1, keywords := [], hash := ("aa".data), source_file := [],
         extraction_date := [] },
       { id := [], «section» := [], subsection := [], objective := [], content := [],
         specific_objectives := [], content_items := [], skills := [], difficulty := 1,
         page_number := 2, keywords := [], hash := ("aa".data), source_file := [],
         extraction_date := [] },
       { id := [], «section» := [], subsection := [], objective := [], content := [],
         specific_objectives := [], content_items := [], skills := [], difficulty := 1,
         page_number := 3, keywords := [], hash := ("bb".data), source_file := [],
         extraction_date := [] }])).map (fun o => o.hash)).Nodup :=
  (C1_dedup_unique_first ("GEN".data) _ (by decide)).1.1

theorem assignIds_map_id : ∀ (pfx : Str) (i : Nat) (l : List Objective),
    (assignIds pfx i l).map (fun o => o.id)
      = (List.range l.length).map (fun k => pfx ++ '-' :: pad5 (k + i)) := by
  intro pfx i l
  induction l generalizing i with
  | nil => rfl
  | cons o rest ih =>
    simp only [assignIds, List.map_cons, List.length_cons, List.range_succ_eq_map,
      List.map_map, ih, Nat.zero_add]
    congr 1
    refine List.map_congr_left fun k hk => ?_
    have harg : k.succ + i = k + (i + 1) := by omega
    simp [Function.comp, harg]

theorem natDigitsF_length_le : ∀ (fuel n k : Nat), n < fuel → 0 < k → n < 10 ^ k →
    (natDigitsF fuel n).length ≤ k := by
  intro fuel
  induction fuel with
  | zero => intro n k h; omega
  | succ fuel ih =>
    intro n k hn hk hpow
    unfold natDigitsF
    by_cases h10 : n < 10
    · rw [if_pos h10]
      simpa using hk
    · rw [if_neg h10]
      rw [List.length_append, List.length_cons, List.length_nil]
      have hk2 : 2 ≤ k := by
        by_contra hlt
        push_neg at hlt
        have hk1 : k = 1 := by omega
        rw [hk1, pow_one] at hpow
        omega
      have hrec : n / 10 < fuel := by
        have := Nat.div_lt_self (by omega : 0 < n) (by omega : 1 < 10)
        omega
      have hpow2 : n / 10 < 10 ^ (k - 1) := by
        rw [Nat.div_lt_iff_lt_mul (by omega : 0 < 10)]
        calc n < 10 ^ k := hpow
          _ = 10 ^ (k - 1) * 10 := by
              rw [← pow_succ]
              congr 1
              omega
      have := ih (n / 10) (k - 1) hrec (by omega) hpow2
      omega

theorem pad5_length (n : Nat) (h : n ≤ 99999) : (pad5 n).length = 5 := by
  have hp : (10 : Nat) ^ 5 = 100000 := by norm_num
  have h5 : (natDigits n).length ≤ 5 :=
    natDigitsF_length_le (n + 1) n 5 (by omega) (by omega) (by omega)
  unfold pad5
  by_cases hlt : (natDigits n).length < 5
  · rw [if_pos hlt]
    rw [List.length_append, List.length_replicate]
    omega
  · rw [if_neg hlt]
    omega

/-- Claim C7: after dedup, ids are assigned in final dedup-iteration
order as `<prefix>-<pad5 k>` for `k = 1..N`, contiguous ascending with
no gaps; when `N ≤ 99999` every ordinal is exactly 5 digits; the prefix
is the first filename-keyword match in the ordered mapping table,
defaulting to `"GEN"` when no keyword occurs. -/
theorem C7_id_assignment (fname : Str) (cands : List Objective)
    (hn : (dedupByHash [] cands).length ≤ 99999) :
    ((assignIds (derivePfx fname) 1 (dedupByHash [] cands)).map (fun o => o.id)
      = (List.range (dedupByHash [] cands).length).map
          (fun k => derivePfx fname ++ '-' :: pad5 (k + 1))
    ∧ (∀ k ∈ List.range (dedupByHash [] cands).length, (pad5 (k + 1)).length = 5))
    ∧ ((∀ kv ∈ mappings, containsSub kv.1 (pyUpper fname) = false) →
        derivePfx fname = ("GEN".data)) := by
  refine ⟨⟨assignIds_map_id _ _ _, ?_⟩, ?_⟩
  · intro k hk
    rw [List.mem_range] at hk
    exact pad5_length (k + 1) (by omega)
  · intro hnone
    have hfind : mappings.find? (fun kv => containsSub kv.1 (pyUpper fname)) = none :=
      List.find?_eq_none.mpr (fun kv hkv => by simp [hnone kv hkv])
    simp [derivePfx, hfind]

/-- A minimal concrete objective used by witnesses. -/
def sampleObj (h : Str) (n : Nat) : Objective :=
  { id := [], «section» := [], subsection := [], objective := [], content := [],
    specific_objectives := [], content_items := [], skills := [], difficulty := 1,
    page_number := n, keywords := [], hash := h, source_file := [],
    extraction_date := [] }

/-- Witness for C7 at two concrete candidates of a `"bio.pdf"` source:
the id list is exactly the enumerated prefix-ordinal forms. -/
theorem C7_witness :
    (assignIds (derivePfx ("bio.pdf".data)) 1
      (dedupByHash [] [sampleObj ("aa".data) 1, sampleObj ("bb".data) 2])).map
        (fun o => o.id)
      = (List.range (dedupByHash []
            [sampleObj ("aa".data) 1, sampleObj ("bb".data) 2]).length).map
          (fun k => derivePfx ("bio.pdf".data) ++ '-' :: pad5 (k + 1)) :=
  (C7_id_assignment ("bio.pdf".data) _ (by decide)).1.1

theorem collect_snd : ∀ (rs : List ParseResult) (m : List (Str × ParseResult))
    (acc : List Objective),
    (rs.foldl (fun acc r => (insertResult acc.1 r, acc.2 ++ r.objectives)) (m, acc)).2
      = acc ++ (rs.map (fun r => r.objectives)).flatten := by
  intro rs
  induction rs with
  | nil => intro m acc; simp
  | cons r rest ih =>
    intro m acc
    simp only [List.foldl_cons, List.map_cons, List.flatten_cons]
    rw [ih]
    rw [List.append_assoc]

theorem collect_fst : ∀ (rs : List ParseResult) (m : List (Str × ParseResult))
    (acc : List Objective),
    (rs.foldl (fun acc r => (insertResult acc.1 r, acc.2 ++ r.objectives)) (m, acc)).1
      = rs.foldl (fun m r => insertResult m r) m := by
  intro rs
  induction rs with
  | nil => intro m acc; rfl
  | cons r rest ih =>
    intro m acc
    simp only [List.foldl_cons]
    exact ih _ _

theorem foldl_insertResult_of_fresh :
    ∀ (rs : List ParseResult) (m : List (Str × ParseResult)),
    (rs.map (fun r => r.filename)).Nodup →
    (∀ r ∈ rs, ∀ p ∈ m, p.1 ≠ r.filename) →
    rs.foldl (fun m r => insertResult m r) m = m ++ rs.map (fun r => (r.filename, r)) := by
  intro rs
  induction rs with
  | nil => intro m _ _; simp
  | cons r rest ih =>
    intro m hnd hfresh
    simp only [List.foldl_cons]
    have hins : insertResult m r = m ++ [(r.filename, r)] := by
      unfold insertResult
      rw [if_neg ?_]
      intro hany
      rw [List.any_eq_true] at hany
      obtain ⟨p, hp, hpe⟩ := hany
      exact hfresh r (List.mem_cons_self _ _) p hp (by simpa using hpe)
    have hnd2 := hnd
    rw [List.map_cons, List.nodup_cons] at hnd2
    rw [hins, ih (m ++ [(r.filename, r)]) hnd2.2 ?_]
    · simp
    · intro r' hr' p hp
      rcases List.mem_append.mp hp with hp | hp
      · exact hfresh r' (List.mem_cons_of_mem _ hr') p hp
      · have hpe : p = (r.filename, r) := by simpa using hp
        subst hpe
        intro hcontra
        have hmem : r'.filename ∈ rest.map (fun x => x.filename) :=
          List.mem_map_of_mem (fun x => x.filename) hr'
        exact hnd2.1 (by rw [show r.filename = r'.filename from hcontra]; exact hmem)

theorem countP_result_partition :
    ∀ (l : List ParseResult), (∀ r ∈ l, r.skipped = true → r.success = true) →
    l.countP (fun r => r.success && !r.skipped) + l.countP (fun r => r.skipped)
      + l.countP (fun r => !r.success) = l.length := by
  intro l
  induction l with
  | nil => intro _; rfl
  | cons r rest ih =>
    intro hwf
    have hr := hwf r (List.mem_cons_self _ _)
    have htail := ih (fun x hx => hwf x (List.mem_cons_of_mem _ hx))
    cases hs : r.success <;> cases hk : r.skipped <;>
      simp only [List.countP_cons, hs, hk, List.length_cons] <;>
        simp_all <;> omega

/-- Claim C10: for a non-empty batch with distinct filenames, the summary
satisfies `processed + skipped + failed = total_files`, and
`total_objectives` equals the length of the combined array, which equals
the sum of the per-document counts.  The hypotheses on the results are
exactly what `parse_single_pdf` guarantees: a skipped result is
successful, and `count` is the length of `objectives`. -/
theorem C10_summary_invariant (rs : List ParseResult) (_hne : rs ≠ [])
    (hnd : (rs.map (fun r => r.filename)).Nodup)
    (hwf : ∀ r ∈ rs, (r.skipped = true → r.success = true)
      ∧ r.count = r.objectives.length) :
    ((process_directory rs).1.processed + (process_directory rs).1.skipped
        + (process_directory rs).1.failed = (process_directory rs).1.total_files
    ∧ (process_directory rs).1.total_objectives = (process_directory rs).2.length)
    ∧ (process_directory rs).2.length = (rs.map (fun r => r.count)).sum := by
  have hfst : (collectResults rs).1 = rs.map (fun r => (r.filename, r)) := by
    unfold collectResults
    rw [collect_fst, foldl_insertResult_of_fresh rs [] hnd (by simp)]
    simp
  have hvals : ((collectResults rs).1.map Prod.snd) = rs := by
    rw [hfst, List.map_map]
    rw [show (Prod.snd ∘ fun r : ParseResult => (r.filename, r)) = id from rfl]
    exact List.map_id rs
  have hsnd : (collectResults rs).2 = (rs.map (fun r => r.objectives)).flatten := by
    unfold collectResults
    exact collect_snd rs [] []
  refine ⟨⟨?_, ?_⟩, ?_⟩
  · show ((collectResults rs).1.map Prod.snd).countP _
        + ((collectResults rs).1.map Prod.snd).countP _
        + ((collectResults rs).1.map Prod.snd).countP _ = rs.length
    rw [hvals]
    exact countP_result_partition rs (fun r hr => (hwf r hr).1)
  · rfl
  · show (collectResults rs).2.length = _
    rw [hsnd, List.length_flatten, List.map_map]
    congr 1
    refine List.map_congr_left fun r hr => ?_
    exact ((hwf r hr).2).symm

/-- Witness for C10 at a concrete three-result batch (one success, one
skip, one failure). -/
theorem C10_witness :
    ((process_directory
        [{ filename := ("a.pdf".data), objectives := [sampleObj ("aa".data) 1], count := 1,
           success := true, skipped := false, error := none },
         { filename := ("b.pdf".data), objectives := [], count := 0,
           success := true, skipped := true, error := none },
         { filename := ("c.pdf".data), objectives := [], count := 0,
           success := false, skipped := false, error := some ("boom".data) }]).1.processed
      + (process_directory
        [{ filename := ("a.pdf".data), objectives := [sampleObj ("aa".data) 1], count := 1,
           success := true, skipped := false, error := none },
         { filename := ("b.pdf".data), objectives := [], count := 0,
           success := true, skipped := true, error := none },
         { filename := ("c.pdf".data), objectives := [], count := 0,
           success := false, skipped := false, error := some ("boom".data) }]).1.skipped
      + (process_directory
        [{ filename := ("a.pdf".data), objectives := [sampleObj ("aa".data) 1], count := 1,
           success := true, skipped := false, error := none },
         { filename := ("b.pdf".data), objectives := [], count := 0,
           success := true, skipped := true, error := none },
         { filename := ("c.pdf".data), objectives := [], count := 0,
           success := false, skipped := false, error := some ("boom".data) }]).1.failed
      = (process_directory
        [{ filename := ("a.pdf".data), objectives := [sampleObj ("aa".data) 1], count := 1,
           success := true, skipped := false, error := none },
         { filename := ("b.pdf".data), objectives := [], count := 0,
           success := true, skipped := true, error := none },
         { filename := ("c.pdf".data), objectives := [], count := 0,
           success := false, skipped := false, error := some ("boom".data) }]).1.total_files) :=
  (C10_summary_invariant _ (by simp) (by decide) (by decide)).1.1

/-- The skip branch of `parse_single_pdf` is taken exactly when
reprocessing is not forced, a cached artifact exists, and the source is
strictly older than it. -/
def skipTaken (pdf : PdfFile) (force : Bool) (cached : Option Artifact) : Bool :=
  match force, cached with
  | false, some a => decide (pdf.mtime < a.mtime)
  | _, _ => false

theorem parse_eq_body_of_not_skip (md5hex : Str → Str) (now : Str)
    (encode : List Objective → List Nat) (wm : Nat) (pdf : PdfFile)
    (pages : Except Str (List Page)) (force : Bool) (cached : Option Artifact)
    (hns : skipTaken pdf force cached = false) :
    parse_single_pdf md5hex now encode wm pdf pages force cached
      = parseBody md5hex now encode wm pdf pages cached := by
  cases force with
  | true => rfl
  | false =>
    cases cached with
    | none => rfl
    | some a =>
      have hlt : ¬ pdf.mtime < a.mtime := by simpa [skipTaken] using hns
      simp [parse_single_pdf, hlt]

/-- Claim C4: an extraction exception is never propagated —
`parse_single_pdf` converts it into a failed result with no objectives,
zero count and the recorded message — and in a batch of three documents
of which exactly the middle one fails, the summary reports
`processed = 2`, `failed = 1`, and the combined array consists exactly
of the two successful documents' objectives. -/
theorem C4_exception_isolated (md5hex : Str → Str) (now : Str)
    (encode : List Objective → List Nat) (wm : Nat) (pdf : PdfFile) (e : Str)
    (force : Bool) (cached : Option Artifact)
    (hns : skipTaken pdf force cached = false) :
    ((parse_single_pdf md5hex now encode wm pdf (Except.error e) force cached).1
      = { filename := pdf.name, objectives := [], count := 0, success := false,
          skipped := false, error := some e })
    ∧ (∀ r1 r2 : ParseResult, r1.success = true → r1.skipped = false →
        r2.success = true → r2.skipped = false →
        r1.filename ≠ pdf.name → r2.filename ≠ pdf.name → r1.filename ≠ r2.filename →
        (process_directory [r1,
            (parse_single_pdf md5hex now encode wm pdf (Except.error e) force cached).1,
            r2]).1.processed = 2
        ∧ (process_directory [r1,
            (parse_single_pdf md5hex now encode wm pdf (Except.error e) force cached).1,
            r2]).1.failed = 1
        ∧ (process_directory [r1,
            (parse_single_pdf md5hex now encode wm pdf (Except.error e) force cached).1,
            r2]).2 = r1.objectives ++ r2.objectives) := by
  have hr : (parse_single_pdf md5hex now encode wm pdf (Except.error e) force cached).1
      = { filename := pdf.name, objectives := [], count := 0, success := false,
          skipped := false, error := some e } := by
    rw [parse_eq_body_of_not_skip md5hex now encode wm pdf (Except.error e) force cached hns]
    rfl
  refine ⟨hr, fun r1 r2 hs1 hk1 hs2 hk2 hn1 hn2 hn12 => ?_⟩
  rw [hr]
  have hb1 : (r1.filename == pdf.name) = false := beq_eq_false_iff_ne.mpr hn1
  have hb2 : (pdf.name == r2.filename) = false :=
    beq_eq_false_iff_ne.mpr (fun h => hn2 h.symm)
  have hb12 : (r1.filename == r2.filename) = false := beq_eq_false_iff_ne.mpr hn12
  have hcoll : ∀ rf : ParseResult, rf.filename = pdf.name → rf.objectives = [] →
      collectResults [r1, rf, r2]
        = ([(r1.filename, r1), (rf.filename, rf), (r2.filename, r2)],
           r1.objectives ++ r2.objectives) := by
    intro rf hf ho
    simp only [collectResults, List.foldl_cons, List.foldl_nil, insertResult,
      List.any_cons, List.any_nil, List.any_append, Bool.or_false, Bool.false_or,
      hf, ho, hb1, hb2, hb12, Bool.false_eq_true, if_false, List.nil_append,
      List.append_nil, List.cons_append, List.singleton_append]
  have hc := hcoll ⟨pdf.name, [], 0, false, false, some e⟩ rfl rfl
  refine ⟨?_, ?_, ?_⟩
  · simp only [process_directory, hc, List.map_cons, List.map_nil,
      List.countP_cons, List.countP_nil, List.countP_map, hs1, hk1, hs2, hk2]
    simp
  · simp only [process_directory, hc, List.map_cons, List.map_nil,
      List.countP_cons, List.countP_nil, List.countP_map, hs1, hk1, hs2, hk2]
    simp
  · simp only [process_directory, hc]

/-- Witness for C4: a concrete corrupted document among two successful
ones yields `processed = 2`, `failed = 1`, and a combined array holding
exactly the two successes' objectives. -/
theorem C4_witness :
    (process_directory
      [{ filename := ("a.pdf".data), objectives := [sampleObj ("aa".data) 1], count := 1,
         success := true, skipped := false, error := none },
       (parse_single_pdf (fun s => s) [] (fun _ => []) 9
          { name := ("bad.pdf".data), mtime := 3 } (Except.error ("boom".data))
          true none).1,
       { filename := ("c.pdf".data), objectives := [sampleObj ("cc".data) 2], count := 1,
         success := true, skipped := false, error := none }]).1.processed = 2 :=
  ((C4_exception_isolated (fun s => s) [] (fun _ => []) 9
      { name := ("bad.pdf".data), mtime := 3 } ("boom".data) true none (by decide)).2
    { filename := ("a.pdf".data), objectives := [sampleObj ("aa".data) 1], count := 1,
      success := true, skipped := false, error := none }
    { filename := ("c.pdf".data), objectives := [sampleObj ("cc".data) 2], count := 1,
      success := true, skipped := false, error := none }
    rfl rfl rfl rfl (by decide) (by decide) (by decide)).1
